import Mathlib

/-!
Verification development for the `onde_esta_heric_trans` telemetry pipeline.

The embedding below translates the JavaScript sources into Lean:
- JS objects become association lists of string keys and `JSVal` values,
  with spread-with-override (`{...o, k: v}`) modelled by `objSet`.
- `LocationManager` (src/src/services/LocationManager.js) becomes an
  explicit state record `LMState` plus pure state-transition functions.
- The `while` drain loop of `LocationManager.processQueue` becomes the
  fuel-indexed `drainLoop`; `drainFuel` is a bound on the loop's step
  count proved sufficient (`drainLoop_complete`), so the fuel never runs
  out and the model coincides with the unbounded JS loop.
- Delivery outcomes of `sendLocation` / `sendLocationToSupabase` are an
  oracle `res : Nat → Bool` giving the result of the k-th attempt.
- The service worker's `syncLocations` (src/service-worker.js) becomes
  `syncLocations`, with a thrown exception on a failed send modelled as
  aborting the loop with the durable queue untouched.
-/

namespace OndeEsta

/-- JavaScript values as they appear in the telemetry records.  The
constructor `isoDate v` symbolically represents the external conversion
`new Date(v).toISOString()` performed in `LocationManager.sendLocation`. -/
inductive JSVal where
  | num (n : Int)
  | str (s : String)
  | jsBool (b : Bool)
  | jsNull
  | jsUndefined
  | isoDate (v : JSVal)
deriving DecidableEq, Repr

/-- A JS object: an association list from field names to values. -/
abbrev JSObj := List (String × JSVal)

/-- Field read `o.k`: first binding for the key, if any. -/
def objGet (o : JSObj) (k : String) : Option JSVal :=
  o.lookup k

/-- Field read defaulting to `undefined`, as JS property access does. -/
def objGetD (o : JSObj) (k : String) : JSVal :=
  (objGet o k).getD .jsUndefined

/-- Spread-with-override `{...o, k: v}`: the binding for `k` is replaced
by `v`; all other bindings keep their relative order. -/
def objSet (o : JSObj) (k : String) (v : JSVal) : JSObj :=
  (o.filter (fun p => p.1 != k)) ++ [(k, v)]

/-- `this.maxRetries = 3` (LocationManager constructor, line 9). -/
def maxRetries : Nat := 3

/-- Queue capacity of the durable snapshot: `if (queue.length > 100)`
(LocationManager.saveToIndexedDB, line 71). -/
def capacity : Nat := 100

/-- `Math.pow(2, this.retryCount) * 1000` (processQueue, line 95). -/
def backoffMs (rc : Nat) : Nat := 2 ^ rc * 1000

/-- State of a `LocationManager` instance together with the durable
IndexedDB snapshot stored under key `'queue'`.  `pendingSync` records
whether a `'location-sync'` background-sync registration is armed
(`scheduleBackgroundSync`, lines 131-137). -/
structure LMState where
  queue : List JSObj
  durable : List JSObj
  retryCount : Nat
  isOnline : Bool
  pendingSync : Bool
deriving DecidableEq, Repr

/-- The manager right after construction, with the given connectivity. -/
def initState (online : Bool) : LMState :=
  { queue := [], durable := [], retryCount := 0, isOnline := online,
    pendingSync := false }

/-- `LocationManager.saveToIndexedDB` (lines 63-79): append the record to
the durable queue, then `queue.splice(0, queue.length - 100)` keeps only
the last 100 records. -/
def saveToIndexedDB (durable : List JSObj) (loc : JSObj) : List JSObj :=
  let q := durable ++ [loc]
  if q.length > capacity then q.drop (q.length - capacity) else q

/-- The record built by `LocationManager.addLocation` (lines 42-46):
`{...location, timestamp: Date.now(), user_id: 'anonymous'}`. -/
def mkLocationData (location : JSObj) (now : Int) : JSObj :=
  objSet (objSet location "timestamp" (.num now)) "user_id" (.str "anonymous")

/-- The row `sendLocation` inserts into `location_updates` (lines 110-116):
lat, lng, accuracy, `new Date(location.timestamp).toISOString()`, user_id. -/
def sendLocationRow (location : JSObj) : JSObj :=
  [("lat", objGetD location "lat"),
   ("lng", objGetD location "lng"),
   ("accuracy", objGetD location "accuracy"),
   ("timestamp", .isoDate (objGetD location "timestamp")),
   ("user_id", objGetD location "user_id")]

/-- One observable event of the drain loop; each event corresponds to
exactly one `sendLocation` call. -/
inductive DrainEvent where
  | delivered (r : JSObj)
  | requeued (r : JSObj) (newRetryCount : Nat) (delayMs : Nat)
  | droppedToDurable (r : JSObj)
deriving DecidableEq, Repr

/-- Result of a drain: final in-memory queue, final durable snapshot,
and the trace of events in order. -/
structure DrainResult where
  queue : List JSObj
  durable : List JSObj
  trace : List DrainEvent
deriving DecidableEq, Repr

/-- The `while (this.queue.length > 0)` loop of
`LocationManager.processQueue` (lines 88-100), fuel-indexed.  Each
iteration: `shift` the front record, attempt delivery (`res k` is the
outcome of the k-th attempt); on failure with `retryCount < maxRetries`,
`unshift` it back, increment `retryCount` and delay
`Math.pow(2, retryCount) * 1000` ms; on failure with the budget spent,
`saveToIndexedDB(location)` and move on.  `drainLoop_complete` shows the
fuel used by `processQueue` never runs out. -/
def drainLoop : Nat → List JSObj → List JSObj → Nat → Nat → (Nat → Bool) →
    DrainResult
  | 0, q, d, _, _, _ => ⟨q, d, []⟩
  | fuel + 1, q, d, rc, k, res =>
    match q with
    | [] => ⟨[], d, []⟩
    | loc :: rest =>
      if res k then
        let r := drainLoop fuel rest d rc (k + 1) res
        ⟨r.queue, r.durable, .delivered loc :: r.trace⟩
      else if rc < maxRetries then
        let r := drainLoop fuel (loc :: rest) d (rc + 1) (k + 1) res
        ⟨r.queue, r.durable, .requeued loc (rc + 1) (backoffMs (rc + 1)) :: r.trace⟩
      else
        let r := drainLoop fuel rest (saveToIndexedDB d loc) rc (k + 1) res
        ⟨r.queue, r.durable, .droppedToDurable loc :: r.trace⟩

/-- Fuel bound for `drainLoop`, strictly above the loop's step count. -/
def drainFuel (q : List JSObj) (rc : Nat) : Nat :=
  q.length * (maxRetries + 1) + (maxRetries - rc) + 1

/-- `LocationManager.processQueue` (lines 81-104): guarded by queue
non-emptiness and connectivity (the `isProcessing` busy flag only blocks
reentrancy in the single-threaded runtime and is left implicit), runs
the drain loop, then `this.retryCount = 0`. -/
def processQueue (s : LMState) (res : Nat → Bool) : LMState × List DrainEvent :=
  if s.queue.isEmpty || !s.isOnline then (s, [])
  else
    let r := drainLoop (drainFuel s.queue s.retryCount) s.queue s.durable
      s.retryCount 0 res
    ({ s with queue := r.queue, durable := r.durable, retryCount := 0 }, r.trace)

/-- `LocationManager.addLocation` (lines 41-61): build the record, push
it onto the in-memory queue, persist it, then drain if online or arm the
background-sync registration if offline. -/
def addLocation (s : LMState) (location : JSObj) (now : Int)
    (res : Nat → Bool) : LMState × List DrainEvent :=
  let d := mkLocationData location now
  let s' := { s with queue := s.queue ++ [d],
                     durable := saveToIndexedDB s.durable d }
  if s.isOnline then processQueue s' res
  else ({ s' with pendingSync := true }, [])

/-- `addLocation` specialised to an offline manager (no drain runs). -/
def addLocationOffline (s : LMState) (location : JSObj) (now : Int) : LMState :=
  let d := mkLocationData location now
  { s with queue := s.queue ++ [d],
           durable := saveToIndexedDB s.durable d,
           pendingSync := true }

/-- A sequence of offline enqueues, each item a sample and its clock time. -/
def enqueueAllOffline (s : LMState) (items : List (JSObj × Int)) : LMState :=
  items.foldl (fun t p => addLocationOffline t p.1 p.2) s

/-- `LocationManager.getQueueLength` (lines 169-171): the length of the
in-memory queue. -/
def getQueueLength (s : LMState) : Nat := s.queue.length

/-- The `'online'` listener of `setupNetworkListener` (lines 31-34):
set `isOnline = true` and call `processQueue`. -/
def handleOnline (s : LMState) (res : Nat → Bool) : LMState × List DrainEvent :=
  processQueue { s with isOnline := true } res

/-- Records settled (removed from the in-memory queue) by a trace, in
order: delivered ones and ones dropped to the durable snapshot. -/
def settledOf (tr : List DrainEvent) : List JSObj :=
  tr.filterMap fun e =>
    match e with
    | .delivered r => some r
    | .droppedToDurable r => some r
    | .requeued _ _ _ => none

/-- Records confirmed delivered by a trace, in order. -/
def deliveredOf (tr : List DrainEvent) : List JSObj :=
  tr.filterMap fun e =>
    match e with
    | .delivered r => some r
    | _ => none

/-- Backoff delays generated by a trace, in order. -/
def delaysOf (tr : List DrainEvent) : List Nat :=
  tr.filterMap fun e =>
    match e with
    | .requeued _ _ ms => some ms
    | _ => none

/-- `syncLoop` models the `for (const location of queue)` loop of the
service worker's `syncLocations` (lines 32-34): each record is sent
once; a failed send throws, aborting the loop.  Returns the records
delivered before the first failure and whether the loop completed. -/
def syncLoop : List JSObj → (Nat → Bool) → Nat → List JSObj × Bool
  | [], _, _ => ([], true)
  | loc :: rest, res, k =>
    if res k then
      let r := syncLoop rest res (k + 1)
      (loc :: r.1, r.2)
    else ([], false)

/-- `syncLocations` (service-worker.js lines 25-42): read the durable
queue, return early if empty, send each record in order, and clear the
store only if every send succeeded; a thrown failure is caught leaving
the durable queue untouched.  Returns the final durable queue and the
list of delivered records. -/
def syncLocations (durable : List JSObj) (res : Nat → Bool) :
    List JSObj × List JSObj :=
  if durable.isEmpty then (durable, [])
  else
    let r := syncLoop durable res 0
    if r.2 then ([], r.1) else (durable, r.1)

/-- `GeolocationService`'s forced heartbeat record
(authService.js source, `startForcedUpdates` lines 139-156):
`{...this.lastLocation, timestamp: Date.now(), forced: true}`. -/
def forcedUpdate (lastLocation : JSObj) (now : Int) : JSObj :=
  objSet (objSet lastLocation "timestamp" (.num now)) "forced" (.jsBool true)

/-- One tick of the forced-update interval: emits only when
`this.isTracking && this.lastLocation` holds. -/
def forcedTick (tracking : Bool) (lastLocation : Option JSObj) (now : Int) :
    Option JSObj :=
  if tracking then lastLocation.map (fun l => forcedUpdate l now)
  else none

/-- The sample built by `GeolocationService.handlePosition`
(lines 166-188) from a platform position fix. -/
def handlePositionSample (lat lng acc : JSVal) (ts : Int)
    (speed heading : JSVal) : JSObj :=
  [("lat", lat), ("lng", lng), ("accuracy", acc), ("timestamp", .num ts),
   ("speed", speed), ("heading", heading)]


/-- The `capacity` most recent elements of a list. -/
def takeLast (n : Nat) (l : List JSObj) : List JSObj :=
  l.drop (l.length - n)

/-! ### Helper lemmas about the embedding -/

lemma objGet_objSet_self (o : JSObj) (k : String) (v : JSVal) :
    objGet (objSet o k v) k = some v := by
  induction o with
  | nil => simp [objGet, objSet, List.lookup]
  | cons a o ih =>
    by_cases h : a.1 = k
    · have hb : (a.1 != k) = false := by simp [h]
      simpa [objGet, objSet, List.filter_cons, hb] using ih
    · have hb : (a.1 != k) = true := by simp [h]
      have hk : (k == a.1) = false := by
        simp [Ne.symm h]
      simp only [objGet, objSet] at ih ⊢
      simp [List.filter_cons, hb, List.lookup, hk, ih]

lemma objGet_objSet_ne (o : JSObj) (k k' : String) (v : JSVal) (h : k ≠ k') :
    objGet (objSet o k' v) k = objGet o k := by
  have hkk : (k == k') = false := by simp [h]
  induction o with
  | nil => simp [objGet, objSet, List.lookup, hkk]
  | cons a o ih =>
    by_cases ha : a.1 = k'
    · have hb : (a.1 != k') = false := by simp [ha]
      have hk2 : (k == a.1) = false := by simp [ha, h]
      simp only [objGet, objSet] at ih ⊢
      simp [List.filter_cons, hb, List.lookup, hk2, ih]
    · have hb : (a.1 != k') = true := by simp [ha]
      by_cases hk : a.1 = k
      · have hk2 : (k == a.1) = true := by simp [hk]
        simp [objGet, objSet, List.filter_cons, hb, List.lookup, hk2]
      · have hk2 : (k == a.1) = false := by simp [Ne.symm hk]
        simp only [objGet, objSet] at ih ⊢
        simp [List.filter_cons, hb, List.lookup, hk2, ih]

lemma length_takeLast (n : Nat) (l : List JSObj) :
    (takeLast n l).length = min n l.length := by
  simp [takeLast]
  omega

lemma saveToIndexedDB_takeLast (l : List JSObj) (x : JSObj) :
    saveToIndexedDB (takeLast capacity l) x = takeLast capacity (l ++ [x]) := by
  have hcap : capacity = 100 := rfl
  have hlen : (takeLast capacity l).length = min capacity l.length :=
    length_takeLast capacity l
  by_cases h : l.length < capacity
  · have h1 : l.length - capacity = 0 := by omega
    have h2 : (l ++ [x]).length - capacity = 0 := by
      simp [List.length_append]; omega
    have h3 : ¬ ((takeLast capacity l ++ [x]).length > capacity) := by
      rw [List.length_append, hlen]; simp; omega
    simp [saveToIndexedDB, if_neg h3, takeLast, h1, h2]
    intro hc
    rw [(by omega : l.length + 1 - capacity = 0)]
    exact (List.drop_zero _).symm
  · have hmin : min capacity l.length = capacity := by omega
    have hlen2 : (takeLast capacity l ++ [x]).length = capacity + 1 := by
      simp [List.length_append, hlen, hmin]
    simp only [saveToIndexedDB, hlen2]
    have hgt : capacity + 1 > capacity := by omega
    simp only [if_pos hgt]
    have hsub : capacity + 1 - capacity = 1 := by omega
    rw [hsub]
    have hlen3 : (l.drop (l.length - capacity)).length = capacity := by
      simp [List.length_drop]; omega
    rw [takeLast, List.drop_append_of_le_length
      (by rw [hlen3]; omega : 1 ≤ (l.drop (l.length - capacity)).length)]
    rw [List.drop_drop]
    rw [takeLast]
    have hx : (l ++ [x]).length - capacity = l.length - capacity + 1 := by
      simp [List.length_append]; omega
    rw [hx, List.drop_append_of_le_length (by omega : l.length - capacity + 1 ≤ l.length)]

lemma enqueueAllOffline_queue :
    ∀ (items : List (JSObj × Int)) (s : LMState),
      (enqueueAllOffline s items).queue
        = s.queue ++ items.map (fun p => mkLocationData p.1 p.2) := by
  intro items
  induction items with
  | nil => intro s; simp [enqueueAllOffline]
  | cons p items ih =>
    intro s
    show (enqueueAllOffline (addLocationOffline s p.1 p.2) items).queue = _
    rw [ih]
    simp [addLocationOffline]

lemma enqueueAllOffline_durable :
    ∀ (items : List (JSObj × Int)) (s : LMState) (l : List JSObj),
      s.durable = takeLast capacity l →
      (enqueueAllOffline s items).durable
        = takeLast capacity (l ++ items.map (fun p => mkLocationData p.1 p.2)) := by
  intro items
  induction items with
  | nil => intro s l h; simpa [enqueueAllOffline] using h
  | cons p items ih =>
    intro s l h
    show (enqueueAllOffline (addLocationOffline s p.1 p.2) items).durable = _
    have hd : (addLocationOffline s p.1 p.2).durable
        = takeLast capacity (l ++ [mkLocationData p.1 p.2]) := by
      simp [addLocationOffline, h, saveToIndexedDB_takeLast]
    rw [ih _ _ hd]
    simp [List.append_assoc]

lemma drainLoop_complete :
    ∀ (fuel : Nat) (q d : List JSObj) (rc k : Nat) (res : Nat → Bool),
      q.length * (maxRetries + 1) + (maxRetries - rc) < fuel →
      (drainLoop fuel q d rc k res).queue = [] ∧
      settledOf (drainLoop fuel q d rc k res).trace = q := by
  have hmr : maxRetries = 3 := rfl
  intro fuel
  induction fuel with
  | zero => intro q d rc k res h; simp only [hmr] at h; omega
  | succ f ih =>
    intro q d rc k res h
    match q with
    | [] => simp [drainLoop, settledOf]
    | loc :: rest =>
      simp only [List.length_cons, hmr] at h
      by_cases hres : res k
      · have hm : rest.length * (maxRetries + 1) + (maxRetries - rc) < f := by
          simp only [hmr]; omega
        have hih := ih rest d rc (k + 1) res hm
        simp [drainLoop, hres, settledOf, List.filterMap_cons] at hih ⊢
        exact hih
      · by_cases hrc : rc < maxRetries
        · have hm : (loc :: rest).length * (maxRetries + 1) + (maxRetries - (rc + 1)) < f := by
            simp only [List.length_cons, hmr]; simp only [hmr] at hrc; omega
          have hih := ih (loc :: rest) d (rc + 1) (k + 1) res hm
          simp [drainLoop, hres, hrc, settledOf, List.filterMap_cons] at hih ⊢
          exact hih
        · have hm : rest.length * (maxRetries + 1) + (maxRetries - rc) < f := by
            simp only [hmr]; omega
          have hih := ih rest (saveToIndexedDB d loc) rc (k + 1) res hm
          simp [drainLoop, hres, hrc, settledOf, List.filterMap_cons] at hih ⊢
          exact hih

lemma drainLoop_all_success :
    ∀ (fuel : Nat) (q d : List JSObj) (rc k : Nat) (res : Nat → Bool),
      (∀ j, res j = true) → q.length < fuel →
      drainLoop fuel q d rc k res = ⟨[], d, q.map .delivered⟩ := by
  intro fuel
  induction fuel with
  | zero => intro q d rc k res _ h; omega
  | succ f ih =>
    intro q d rc k res hall h
    match q with
    | [] => simp [drainLoop]
    | loc :: rest =>
      simp only [List.length_cons] at h
      have hih := ih rest d rc (k + 1) res hall (by omega)
      simp [drainLoop, hall k, hih]

lemma drainLoop_settled_take :
    ∀ (fuel : Nat) (q d : List JSObj) (rc k : Nat) (res : Nat → Bool),
      ∃ m, settledOf (drainLoop fuel q d rc k res).trace = q.take m := by
  intro fuel
  induction fuel with
  | zero => intro q d rc k res; exact ⟨0, by simp [drainLoop, settledOf]⟩
  | succ f ih =>
    intro q d rc k res
    match q with
    | [] => exact ⟨0, by simp [drainLoop, settledOf]⟩
    | loc :: rest =>
      by_cases hres : res k
      · obtain ⟨m, hm⟩ := ih rest d rc (k + 1) res
        exact ⟨m + 1, by
          simp [drainLoop, hres, settledOf, List.filterMap_cons] at hm ⊢
          exact hm⟩
      · by_cases hrc : rc < maxRetries
        · obtain ⟨m, hm⟩ := ih (loc :: rest) d (rc + 1) (k + 1) res
          exact ⟨m, by
            simp [drainLoop, hres, hrc, settledOf, List.filterMap_cons] at hm ⊢
            exact hm⟩
        · obtain ⟨m, hm⟩ := ih rest (saveToIndexedDB d loc) rc (k + 1) res
          exact ⟨m + 1, by
            simp [drainLoop, hres, hrc, settledOf, List.filterMap_cons] at hm ⊢
            exact hm⟩

lemma drainLoop_delays :
    ∀ (fuel : Nat) (q d : List JSObj) (rc k : Nat) (res : Nat → Bool),
      ∃ n, delaysOf (drainLoop fuel q d rc k res).trace =
          (List.range n).map (fun i => backoffMs (rc + i + 1)) ∧
        (n = 0 ∨ rc + n ≤ maxRetries) := by
  intro fuel
  induction fuel with
  | zero => intro q d rc k res; exact ⟨0, by simp [drainLoop, delaysOf], Or.inl rfl⟩
  | succ f ih =>
    intro q d rc k res
    match q with
    | [] => exact ⟨0, by simp [drainLoop, delaysOf], Or.inl rfl⟩
    | loc :: rest =>
      by_cases hres : res k
      · obtain ⟨n, hn, hb⟩ := ih rest d rc (k + 1) res
        refine ⟨n, ?_, hb⟩
        simp [drainLoop, hres, delaysOf, List.filterMap_cons] at hn ⊢
        exact hn
      · by_cases hrc : rc < maxRetries
        · obtain ⟨n, hn, hb⟩ := ih (loc :: rest) d (rc + 1) (k + 1) res
          refine ⟨n + 1, ?_, Or.inr (by omega)⟩
          have hstep : delaysOf (drainLoop (f + 1) (loc :: rest) d rc k res).trace
              = backoffMs (rc + 1) ::
                delaysOf (drainLoop f (loc :: rest) d (rc + 1) (k + 1) res).trace := by
            simp [drainLoop, hres, hrc, delaysOf, List.filterMap_cons]
          rw [hstep, hn, List.range_succ_eq_map, List.map_cons, List.map_map]
          have hfun : ((fun i => backoffMs (rc + i + 1)) ∘ Nat.succ)
              = (fun i => backoffMs (rc + 1 + i + 1)) := by
            funext i
            simp only [Function.comp]
            congr 1
            omega
          rw [hfun]
        · obtain ⟨n, hn, hb⟩ := ih rest (saveToIndexedDB d loc) rc (k + 1) res
          refine ⟨n, ?_, hb⟩
          simp [drainLoop, hres, hrc, delaysOf, List.filterMap_cons] at hn ⊢
          exact hn


/-! ### Concrete fixtures for scenarios and counterexamples -/

/-- A sample position fix. -/
def locA : JSObj := [("lat", .num 1), ("lng", .num 2), ("accuracy", .num 3)]

/-- A second sample position fix. -/
def locB : JSObj := [("lat", .num 4), ("lng", .num 5), ("accuracy", .num 6)]

/-- A third sample position fix. -/
def locC : JSObj := [("lat", .num 7), ("lng", .num 8), ("accuracy", .num 9)]

/-- The queued record for `locA` enqueued at time 0. -/
def recA : JSObj := mkLocationData locA 0

/-- The queued record for `locB` enqueued at time 1. -/
def recB : JSObj := mkLocationData locB 1

/-- The queued record for `locC` enqueued at time 2. -/
def recC : JSObj := mkLocationData locC 2

/-- Delivery oracle: the first attempt fails, later attempts succeed. -/
def failOnce : Nat → Bool := fun k => decide (1 ≤ k)

/-- Delivery oracle: the first two attempts fail, later attempts succeed. -/
def failTwice : Nat → Bool := fun k => decide (2 ≤ k)

/-- Delivery oracle: even-numbered attempts fail, odd-numbered succeed. -/
def alternating : Nat → Bool := fun k => decide (k % 2 = 1)

/-- Delivery oracle: every attempt fails. -/
def alwaysFail : Nat → Bool := fun _ => false

/-- Delivery oracle: every attempt succeeds. -/
def alwaysOk : Nat → Bool := fun _ => true

/-! ### Claim theorems -/

/-- C10: for every sample passed to enqueue, the queued record and the row
sent to the sink carry a timestamp equal to the enqueue time (overwriting
any capture timestamp the input had) and the fixed producer id
`anonymous`, regardless of the input sample's fields. -/
theorem C10_enqueue_overwrites_timestamp_and_producer
    (location : JSObj) (now : Int) :
    objGet (mkLocationData location now) "timestamp" = some (.num now) ∧
    objGet (mkLocationData location now) "user_id" = some (.str "anonymous") ∧
    objGet (sendLocationRow (mkLocationData location now)) "timestamp"
      = some (.isoDate (.num now)) ∧
    objGet (sendLocationRow (mkLocationData location now)) "user_id"
      = some (.str "anonymous") := by
  have ht : objGet (mkLocationData location now) "timestamp" = some (.num now) := by
    unfold mkLocationData
    rw [objGet_objSet_ne _ _ _ _ (by decide), objGet_objSet_self]
  have hu : objGet (mkLocationData location now) "user_id"
      = some (.str "anonymous") := objGet_objSet_self _ _ _
  refine ⟨ht, hu, ?_, ?_⟩
  · have hrow : objGet (sendLocationRow (mkLocationData location now)) "timestamp"
        = some (.isoDate (objGetD (mkLocationData location now) "timestamp")) := rfl
    rw [hrow]
    unfold objGetD
    rw [ht]
    rfl
  · have hrow : objGet (sendLocationRow (mkLocationData location now)) "user_id"
        = some (objGetD (mkLocationData location now) "user_id") := rfl
    rw [hrow]
    unfold objGetD
    rw [hu]
    rfl

/-- C7: a heartbeat tick while tracking is active, with a last live sample
available, emits that sample's coordinates with the timestamp refreshed to
the tick time, so timestamps strictly increase across ticks. -/
theorem C7_heartbeat_reuses_coords_fresh_timestamp
    (l : JSObj) (t1 t2 : Int) (h : t1 < t2) :
    forcedTick true (some l) t1 = some (forcedUpdate l t1) ∧
    objGet (forcedUpdate l t1) "lat" = objGet l "lat" ∧
    objGet (forcedUpdate l t1) "lng" = objGet l "lng" ∧
    objGet (forcedUpdate l t1) "timestamp" = some (.num t1) ∧
    objGet (forcedUpdate l t2) "timestamp" = some (.num t2) ∧
    t1 < t2 := by
  have hts : ∀ t : Int, objGet (forcedUpdate l t) "timestamp" = some (.num t) := by
    intro t
    unfold forcedUpdate
    rw [objGet_objSet_ne _ _ _ _ (by decide), objGet_objSet_self]
  have hcoord : ∀ kk : String, kk ≠ "timestamp" → kk ≠ "forced" →
      ∀ t : Int, objGet (forcedUpdate l t) kk = objGet l kk := by
    intro kk h1 h2 t
    unfold forcedUpdate
    rw [objGet_objSet_ne _ _ _ _ h2, objGet_objSet_ne _ _ _ _ h1]
  exact ⟨rfl, hcoord "lat" (by decide) (by decide) t1,
    hcoord "lng" (by decide) (by decide) t1, hts t1, hts t2, h⟩

/-- Witness for C7 at a concrete last sample and tick times 0 and 5000. -/
theorem C7_heartbeat_witness :
    (0 : Int) < 5000 ∧
    (forcedTick true (some locA) 0 = some (forcedUpdate locA 0) ∧
     objGet (forcedUpdate locA 0) "lat" = objGet locA "lat" ∧
     objGet (forcedUpdate locA 0) "lng" = objGet locA "lng" ∧
     objGet (forcedUpdate locA 0) "timestamp" = some (.num 0) ∧
     objGet (forcedUpdate locA 5000) "timestamp" = some (.num 5000) ∧
     (0 : Int) < 5000) :=
  ⟨by decide, C7_heartbeat_reuses_coords_fresh_timestamp locA 0 5000 (by decide)⟩

/-- C6 counterexample: the record created by enqueue carries no
`attemptCount` field at all. -/
theorem C6_counterexample_no_attemptCount :
    objGet (mkLocationData locA 0) "attemptCount" = none := by decide

/-- C6 amended: queued records carry no per-record attempt counter (the
lookup of `attemptCount` yields nothing); retries are accounted by the
process-wide `retryCount`.  In the fails-twice-then-succeeds scenario the
record is delivered exactly once, three delivery attempts are made, and
the in-memory queue is then empty. -/
theorem C6_amended_no_per_record_counter
    (lat lng acc speed heading : JSVal) (ts now : Int) :
    objGet (mkLocationData (handlePositionSample lat lng acc ts speed heading) now)
        "attemptCount" = none ∧
    deliveredOf (processQueue
        ⟨[mkLocationData (handlePositionSample lat lng acc ts speed heading) now],
         [mkLocationData (handlePositionSample lat lng acc ts speed heading) now],
         0, true, false⟩ failTwice).2
      = [mkLocationData (handlePositionSample lat lng acc ts speed heading) now] ∧
    (processQueue
        ⟨[mkLocationData (handlePositionSample lat lng acc ts speed heading) now],
         [mkLocationData (handlePositionSample lat lng acc ts speed heading) now],
         0, true, false⟩ failTwice).2.length = 3 ∧
    (processQueue
        ⟨[mkLocationData (handlePositionSample lat lng acc ts speed heading) now],
         [mkLocationData (handlePositionSample lat lng acc ts speed heading) now],
         0, true, false⟩ failTwice).1.queue = [] :=
  ⟨rfl, rfl, rfl, rfl⟩

/-- C2 counterexample: after 101 offline enqueues the length reported by
`getQueueLength` is 101, exceeding the capacity of 100. -/
theorem C2_counterexample_length_exceeds_capacity :
    getQueueLength (enqueueAllOffline (initState false)
        (List.replicate 101 (locA, 0))) = 101 ∧
    capacity < getQueueLength (enqueueAllOffline (initState false)
        (List.replicate 101 (locA, 0))) := by
  have h : getQueueLength (enqueueAllOffline (initState false)
      (List.replicate 101 (locA, 0))) = 101 := by
    rw [getQueueLength, enqueueAllOffline_queue]
    simp [initState]
  exact ⟨h, by rw [h]; decide⟩

/-- C2 amended: only the durable snapshot is capacity-bounded — after any
sequence of offline enqueues it holds the `capacity` most recent records
(exactly `capacity` of them once more than `capacity` were enqueued) —
while the in-memory queue, which `getQueueLength` reports, holds every
enqueued record and is unbounded. -/
theorem C2_amended_durable_bounded_memory_unbounded
    (items : List (JSObj × Int)) :
    getQueueLength (enqueueAllOffline (initState false) items) = items.length ∧
    (enqueueAllOffline (initState false) items).durable
      = takeLast capacity (items.map (fun p => mkLocationData p.1 p.2)) ∧
    (enqueueAllOffline (initState false) items).durable.length
      = min capacity items.length := by
  have hq := enqueueAllOffline_queue items (initState false)
  have hd := enqueueAllOffline_durable items (initState false) [] rfl
  refine ⟨?_, ?_, ?_⟩
  · rw [getQueueLength, hq]
    simp [initState]
  · simpa using hd
  · have hd2 : (enqueueAllOffline (initState false) items).durable
        = takeLast capacity (items.map (fun p => mkLocationData p.1 p.2)) := by
      simpa using hd
    rw [hd2, length_takeLast]
    simp


lemma deliveredOf_map (l : List JSObj) :
    deliveredOf (l.map .delivered) = l := by
  induction l with
  | nil => rfl
  | cons a l ih =>
    simp [deliveredOf, List.filterMap_cons] at ih ⊢
    exact ih

lemma backoffMs_mono {a b : Nat} (h : a ≤ b) : backoffMs a ≤ backoffMs b := by
  unfold backoffMs
  exact Nat.mul_le_mul_right 1000 (Nat.pow_le_pow_right (by omega) h)

lemma drainFuel_spec (q : List JSObj) (rc : Nat) :
    q.length * (maxRetries + 1) + (maxRetries - rc) < drainFuel q rc := by
  simp [drainFuel]

/-- C1 counterexample: with two queued records and every delivery attempt
failing, the drain does not halt once the budget is exhausted — it empties
the in-memory queue, appending both records again to the durable
snapshot. -/
theorem C1_counterexample_drain_does_not_halt :
    (processQueue ⟨[recA, recB], [recA, recB], 0, true, false⟩ alwaysFail).1.queue
      = [] ∧
    (processQueue ⟨[recA, recB], [recA, recB], 0, true, false⟩ alwaysFail).1.durable
      = [recA, recB, recA, recB] :=
  ⟨rfl, rfl⟩

/-- C1 amended: once `maxRetries` cumulative failures have accumulated, a
further failing record is removed from the in-memory queue and appended to
the durable snapshot via `saveToIndexedDB` instead of being kept queued;
the drain then continues with the remaining records until the in-memory
queue is empty, rather than halting.  Every drain run while online settles
every queued record (delivered or diverted to the durable store) and ends
with an empty in-memory queue. -/
theorem C1_amended_drain_continues_until_empty
    (s : LMState) (res : Nat → Bool) (h : s.isOnline = true) :
    (processQueue s res).1.queue = [] ∧
    settledOf (processQueue s res).2 = s.queue := by
  by_cases hq : s.queue.isEmpty
  · have hnil : s.queue = [] := by simpa [List.isEmpty_iff] using hq
    simp [processQueue, hq, settledOf, hnil]
  · have hqf : s.queue.isEmpty = false := by
      simpa using hq
    have hcomp := drainLoop_complete (drainFuel s.queue s.retryCount) s.queue
      s.durable s.retryCount 0 res (drainFuel_spec s.queue s.retryCount)
    simpa [processQueue, hqf, h] using hcomp

/-- Witness for C1 amended: one record, every attempt failing. -/
theorem C1_amended_witness :
    (⟨[recA], [recA], 0, true, false⟩ : LMState).isOnline = true ∧
    ((processQueue ⟨[recA], [recA], 0, true, false⟩ alwaysFail).1.queue = [] ∧
     settledOf (processQueue ⟨[recA], [recA], 0, true, false⟩ alwaysFail).2
       = [recA]) :=
  ⟨rfl, C1_amended_drain_continues_until_empty _ alwaysFail rfl⟩

/-- C3: if records are enqueued while offline and, once connectivity
returns, every delivery attempt succeeds, the online-transition drain
delivers all queued records in their original FIFO order and leaves the
in-memory queue empty. -/
theorem C3_offline_enqueues_drain_fifo
    (items : List (JSObj × Int)) (res : Nat → Bool)
    (hall : ∀ k, res k = true) :
    deliveredOf (handleOnline (enqueueAllOffline (initState false) items) res).2
      = items.map (fun p => mkLocationData p.1 p.2) ∧
    (handleOnline (enqueueAllOffline (initState false) items) res).1.queue
      = [] := by
  have hq : (enqueueAllOffline (initState false) items).queue
      = items.map (fun p => mkLocationData p.1 p.2) := by
    rw [enqueueAllOffline_queue]
    simp [initState]
  unfold handleOnline
  by_cases hq0 : (enqueueAllOffline (initState false) items).queue.isEmpty
  · have hnil : (enqueueAllOffline (initState false) items).queue = [] := by
      simpa [List.isEmpty_iff] using hq0
    have hmap : items.map (fun p => mkLocationData p.1 p.2) = [] := by
      rw [← hq, hnil]
    simp [processQueue, hq0, deliveredOf, hnil, hmap]
  · have hqf : (enqueueAllOffline (initState false) items).queue.isEmpty = false := by
      simpa using hq0
    have hlen : (enqueueAllOffline (initState false) items).queue.length
        < drainFuel (enqueueAllOffline (initState false) items).queue
            (enqueueAllOffline (initState false) items).retryCount := by
      have hmr : maxRetries = 3 := rfl
      simp only [drainFuel, hmr]
      omega
    have hrun := drainLoop_all_success _ _
      (enqueueAllOffline (initState false) items).durable
      (enqueueAllOffline (initState false) items).retryCount 0 res hall hlen
    simp [processQueue, hqf]
    rw [hrun]
    simp [deliveredOf_map, hq]
    rw [← List.map_map]
    exact deliveredOf_map _

/-- Witness for C3: three offline enqueues, then an always-successful
drain delivers all three in order. -/
theorem C3_offline_enqueues_witness :
    (∀ k, alwaysOk k = true) ∧
    (deliveredOf (handleOnline
        (enqueueAllOffline (initState false) [(locA, 0), (locB, 1), (locC, 2)])
        alwaysOk).2
      = [recA, recB, recC] ∧
    (handleOnline
        (enqueueAllOffline (initState false) [(locA, 0), (locB, 1), (locC, 2)])
        alwaysOk).1.queue = []) :=
  ⟨fun _ => rfl,
   C3_offline_enqueues_drain_fifo [(locA, 0), (locB, 1), (locC, 2)] alwaysOk
     (fun _ => rfl)⟩

/-- C5 counterexample: a failure, a success, then another failure in one
drain.  The second run of consecutive failures starts with a suspension of
4000 ms, not `base * 2 ^ 1 = 2000` ms, because the failure counter is not
reset on the intervening success. -/
theorem C5_counterexample_counter_not_reset_per_run :
    delaysOf (processQueue ⟨[recA, recB], [], 0, true, false⟩ alternating).2
      = [2000, 4000] ∧
    (4000 : Nat) ≠ 1000 * 2 ^ 1 :=
  ⟨rfl, by decide⟩

/-- C5 amended: within one drain the k-th backoff suspension is
`2 ^ (retryCount + k) * 1000` ms, where `retryCount` counts all failures
of the drain cumulatively (it is not reset by an intervening success);
there is no configured cap, but at most `maxRetries` suspensions occur, so
delays are non-decreasing and never exceed `2 ^ maxRetries * 1000` ms; the
counter resets to zero only when the drain loop exits with the queue
empty. -/
theorem C5_amended_cumulative_backoff
    (s : LMState) (res : Nat → Bool) (h : s.isOnline = true)
    (hq : s.queue ≠ []) :
    (∃ n, delaysOf (processQueue s res).2
        = (List.range n).map (fun i => backoffMs (s.retryCount + i + 1)) ∧
      (n = 0 ∨ s.retryCount + n ≤ maxRetries)) ∧
    List.Pairwise (· ≤ ·) (delaysOf (processQueue s res).2) ∧
    (∀ x ∈ delaysOf (processQueue s res).2, x ≤ backoffMs maxRetries) ∧
    (processQueue s res).1.retryCount = 0 := by
  have hqf : s.queue.isEmpty = false := by
    simpa [List.isEmpty_iff] using hq
  obtain ⟨n, hn, hb⟩ := drainLoop_delays (drainFuel s.queue s.retryCount)
    s.queue s.durable s.retryCount 0 res
  have hdel : delaysOf (processQueue s res).2
      = (List.range n).map (fun i => backoffMs (s.retryCount + i + 1)) := by
    simpa [processQueue, hqf, h] using hn
  refine ⟨⟨n, hdel, hb⟩, ?_, ?_, ?_⟩
  · rw [hdel, List.pairwise_map]
    exact (List.pairwise_lt_range n).imp fun hab => backoffMs_mono (by omega)
  · rw [hdel]
    intro x hx
    simp only [List.mem_map, List.mem_range] at hx
    obtain ⟨i, hi, rfl⟩ := hx
    rcases hb with hb0 | hble
    · omega
    · exact backoffMs_mono (by omega)
  · simp [processQueue, hqf, h]

/-- Witness for C5 amended: one queued record with two failures before
success. -/
theorem C5_amended_witness :
    ((⟨[recA], [], 0, true, false⟩ : LMState).isOnline = true ∧
     ([recA] : List JSObj) ≠ []) ∧
    ((∃ n, delaysOf (processQueue ⟨[recA], [], 0, true, false⟩ failTwice).2
        = (List.range n).map (fun i => backoffMs (0 + i + 1)) ∧
      (n = 0 ∨ 0 + n ≤ maxRetries)) ∧
    List.Pairwise (· ≤ ·)
      (delaysOf (processQueue ⟨[recA], [], 0, true, false⟩ failTwice).2) ∧
    (∀ x ∈ delaysOf (processQueue ⟨[recA], [], 0, true, false⟩ failTwice).2,
      x ≤ backoffMs maxRetries) ∧
    (processQueue ⟨[recA], [], 0, true, false⟩ failTwice).1.retryCount = 0) :=
  ⟨⟨rfl, List.cons_ne_nil _ _⟩,
   C5_amended_cumulative_backoff _ failTwice rfl (List.cons_ne_nil _ _)⟩


/-- C8 counterexample: a background-sync registration armed while offline
is still pending after the online transition — the `'online'` handler only
drains; nothing unregisters `'location-sync'`. -/
theorem C8_counterexample_sync_not_cancelled :
    (handleOnline ⟨[], [], 0, false, true⟩ alwaysOk).1.pendingSync = true :=
  rfl

/-- C8 amended: the online transition sets the online flag and triggers a
drain immediately (a non-empty queue produces at least one delivery
attempt), but it never cancels a background-sync registration: the
pending-registration state is exactly what it was before the
transition. -/
theorem C8_amended_drain_triggered_sync_kept
    (s : LMState) (res : Nat → Bool) :
    (handleOnline s res).1.pendingSync = s.pendingSync ∧
    (handleOnline s res).1.isOnline = true ∧
    (s.queue = [] ∨ (handleOnline s res).2 ≠ []) := by
  cases hq : s.queue with
  | nil =>
    refine ⟨?_, ?_, Or.inl rfl⟩ <;> simp [handleOnline, processQueue, hq]
  | cons loc rest =>
    have hstep : (handleOnline s res).2
        = (drainLoop (drainFuel (loc :: rest) s.retryCount) (loc :: rest)
            s.durable s.retryCount 0 res).trace := by
      simp [handleOnline, processQueue, hq]
    refine ⟨?_, ?_, Or.inr ?_⟩
    · simp [handleOnline, processQueue, hq]
    · simp [handleOnline, processQueue, hq]
    · rw [hstep]
      have hf : drainFuel (loc :: rest) s.retryCount
          = (loc :: rest).length * (maxRetries + 1) + (maxRetries - s.retryCount)
            + 1 := rfl
      rw [hf]
      by_cases h0 : res 0
      · simp [drainLoop, h0]
      · by_cases hrc : s.retryCount < maxRetries
        · simp [drainLoop, h0, hrc]
        · simp [drainLoop, h0, hrc]

lemma syncLoop_spec (res : Nat → Bool) :
    ∀ (q : List JSObj) (k : Nat),
      ((syncLoop q res k).2 = true ∧ (syncLoop q res k).1 = q) ∨
      ((syncLoop q res k).2 = false ∧
        ∃ m, m < q.length ∧ (syncLoop q res k).1 = q.take m) := by
  intro q
  induction q with
  | nil => intro k; left; exact ⟨rfl, rfl⟩
  | cons loc rest ih =>
    intro k
    by_cases hres : res k
    · rcases ih (k + 1) with ⟨h2, h1⟩ | ⟨h2, m, hm, h1⟩
      · left
        constructor <;> simp [syncLoop, hres, h1, h2]
      · right
        refine ⟨by simp [syncLoop, hres, h2], m + 1, by simp; omega, ?_⟩
        simp [syncLoop, hres, h1]
    · right
      exact ⟨by simp [syncLoop, hres], 0, by simp, by simp [syncLoop, hres]⟩

/-- C4 counterexample: on the same single-record queue with the first
attempt failing and every later attempt succeeding, the foreground drain
retries and delivers the record with a 2000 ms backoff, while the worker's
`syncLocations` makes one attempt, delivers nothing, performs no requeue
or backoff, and leaves the durable queue untouched — the two algorithms
differ. -/
theorem C4_counterexample_worker_differs_from_foreground :
    (syncLocations [recA] failOnce).2 = [] ∧
    (syncLocations [recA] failOnce).1 = [recA] ∧
    deliveredOf (processQueue ⟨[recA], [recA], 0, true, false⟩ failOnce).2
      = [recA] ∧
    (processQueue ⟨[recA], [recA], 0, true, false⟩ failOnce).1.queue = [] ∧
    delaysOf (processQueue ⟨[recA], [recA], 0, true, false⟩ failOnce).2
      = [2000] :=
  ⟨rfl, rfl, rfl, rfl, rfl⟩

/-- C4 amended: the worker's drain sends each durable record once in
order with no requeue, no failure counter, no backoff and no retry
budget: either every send succeeds and the store is cleared after
delivering the whole snapshot in order, or the first failure aborts the
drain, leaving the entire snapshot in place with only a proper initial
segment of it delivered. -/
theorem C4_amended_worker_all_or_abort
    (durable : List JSObj) (res : Nat → Bool) :
    ((syncLocations durable res).1 = [] ∧
     (syncLocations durable res).2 = durable) ∨
    ((syncLocations durable res).1 = durable ∧
      ∃ m, m < durable.length ∧
        (syncLocations durable res).2 = durable.take m) := by
  by_cases hq : durable.isEmpty
  · left
    have hnil : durable = [] := by simpa [List.isEmpty_iff] using hq
    simp [syncLocations, hq, hnil]
  · have hqf : durable.isEmpty = false := by simpa using hq
    rcases syncLoop_spec res durable 0 with ⟨h2, h1⟩ | ⟨h2, m, hm, h1⟩
    · left
      constructor <;> simp [syncLocations, hqf, h2, h1]
    · right
      refine ⟨by simp [syncLocations, hqf, h2], m, hm, ?_⟩
      simp [syncLocations, hqf, h2, h1]

/-- C9 counterexample: enqueueing one record online with every delivery
attempt failing makes the drain exhaust the budget and append the record
to the durable snapshot a second time — the durable queue then contains a
duplicate identity. -/
theorem C9_counterexample_durable_duplicate :
    (addLocation (initState true) locA 0 alwaysFail).1.durable = [recA, recA] ∧
    ¬ (addLocation (initState true) locA 0 alwaysFail).1.durable.Nodup := by
  have h : (addLocation (initState true) locA 0 alwaysFail).1.durable
      = [recA, recA] := rfl
  exact ⟨h, by rw [h]; decide⟩

/-- C9 amended: the in-memory queue is never reordered — a drain settles
records strictly in FIFO order (the settled sequence is an initial
segment of the queue, requeue-to-head preserving the order of the rest)
and enqueue appends at the tail — but the durable snapshot does not
preserve the no-duplicate invariant: a record that exhausts the retry
budget is appended to it again. -/
theorem C9_amended_fifo_settle_order
    (s : LMState) (res : Nat → Bool) (location : JSObj) (now : Int) :
    (∃ m, settledOf (processQueue s res).2 = s.queue.take m) ∧
    (addLocationOffline s location now).queue
      = s.queue ++ [mkLocationData location now] := by
  constructor
  · by_cases hcond : (s.queue.isEmpty || !s.isOnline) = true
    · refine ⟨0, ?_⟩
      simp [processQueue, hcond, settledOf]
    · have hcf : (s.queue.isEmpty || !s.isOnline) = false := by
        simpa using hcond
      obtain ⟨m, hm⟩ := drainLoop_settled_take (drainFuel s.queue s.retryCount)
        s.queue s.durable s.retryCount 0 res
      refine ⟨m, ?_⟩
      simpa [processQueue, hcf] using hm
  · rfl

end OndeEsta
